import Mathlib

/-!
Shallow embedding of the scoring and ranking engine of `src/ranking-calculator.js`
(Sistema de Ranking de Entregadores).

Modelling conventions:
* JavaScript numbers are modelled as `ℚ` where fractional values occur
  (durations in seconds, percentages) and as `ℕ` for point totals, which are
  integer-valued throughout the engine.
* `String.prototype.split` with a one-character separator is modelled by
  `splitOnChar` over the string's character list.
* `parseInt` / `parseFloat` followed by `|| 0` are modelled by `parseIntChars` /
  `parseFloatChars`: leading ASCII whitespace is skipped, an optional sign is
  read, and the longest numeric prefix is converted; when no numeric prefix
  exists the JavaScript result is `NaN`, which `|| 0` turns into `0`, so the
  model returns `0` directly.  Exponent notation and the `Infinity` literal,
  which never occur in duration fields, are outside the model.
* A missing (`undefined`/`null`) or non-string duration field is modelled by
  `none`.
-/

/-- Splits a character list at every occurrence of the separator, keeping empty
segments, exactly as JavaScript `String.prototype.split` does with a
one-character separator (`"".split` gives one empty segment). -/
def splitOnChar (sep : Char) : List Char → List (List Char)
  | [] => [[]]
  | c :: cs =>
    if c = sep then [] :: splitOnChar sep cs
    else
      match splitOnChar sep cs with
      | [] => [[c]]
      | g :: gs => (c :: g) :: gs

/-- Characters skipped by `parseInt`/`parseFloat` before the number (the common
ASCII whitespace characters). -/
def isWhitespaceJS (c : Char) : Bool :=
  c == ' ' || c == '\t' || c == '\n' || c == '\r' || c == '\x0b' || c == '\x0c'

/-- Numeric value of a decimal digit character. -/
def digitVal (c : Char) : Nat := c.toNat - 48

/-- Value of a list of decimal digit characters read left to right. -/
def digitsToNat (ds : List Char) : Nat := ds.foldl (fun n c => n * 10 + digitVal c) 0

/-- Hexadecimal digit test, for `parseInt`'s automatic `0x` radix detection. -/
def isHexDigitChar (c : Char) : Bool :=
  c.isDigit || (decide ('a' ≤ c) && decide (c ≤ 'f')) || (decide ('A' ≤ c) && decide (c ≤ 'F'))

/-- Numeric value of a hexadecimal digit character. -/
def hexVal (c : Char) : Nat :=
  if c.isDigit then c.toNat - 48
  else if decide ('a' ≤ c) then c.toNat - 87
  else c.toNat - 55

/-- Value of a list of hexadecimal digit characters read left to right. -/
def hexToNat (ds : List Char) : Nat := ds.foldl (fun n c => n * 16 + hexVal c) 0

/-- Reads an optional leading sign, as `parseInt` and `parseFloat` do. -/
def lerSinal : List Char → Int × List Char
  | c :: cs => if c = '+' then (1, cs) else if c = '-' then (-1, cs) else (1, c :: cs)
  | [] => (1, [])

/-- Recognises the `0x`/`0X` prefix that makes `parseInt` (called without an
explicit radix) parse hexadecimal digits. -/
def ehPrefixoHex : List Char → Bool
  | c0 :: c1 :: _ => c0 == '0' && (c1 == 'x' || c1 == 'X')
  | _ => false

/-- Model of JavaScript `parseInt(text) || 0` over the character list of the
text: skip whitespace, read an optional sign, then convert the longest digit
prefix (hexadecimal after a `0x` prefix, decimal otherwise); when there is no
digit the JavaScript call yields `NaN` and `|| 0` turns it into `0`. -/
def parseIntChars (cs : List Char) : Int :=
  let corpo := (lerSinal (cs.dropWhile isWhitespaceJS)).2
  let sinal := (lerSinal (cs.dropWhile isWhitespaceJS)).1
  if ehPrefixoHex corpo then
    let ds := (corpo.drop 2).takeWhile isHexDigitChar
    if ds = [] then 0 else sinal * hexToNat ds
  else
    let ds := corpo.takeWhile Char.isDigit
    if ds = [] then 0 else sinal * digitsToNat ds

/-- Reads the optional fractional digit run after a dot, for `parseFloat`. -/
def lerFracao : List Char → List Char
  | '.' :: depois => depois.takeWhile Char.isDigit
  | _ => []

/-- Model of JavaScript `parseFloat(text) || 0` over the character list of the
text: skip whitespace, read an optional sign, then an integer digit prefix and
an optional fractional digit run after a dot; with no digits at all the
JavaScript call yields `NaN` and `|| 0` turns it into `0`. -/
def parseFloatChars (cs : List Char) : ℚ :=
  let corpo := (lerSinal (cs.dropWhile isWhitespaceJS)).2
  let sinal := (lerSinal (cs.dropWhile isWhitespaceJS)).1
  let inteiros := corpo.takeWhile Char.isDigit
  let fracao := lerFracao (corpo.dropWhile Char.isDigit)
  if inteiros = [] ∧ fracao = [] then 0
  else (sinal : ℚ) * ((digitsToNat inteiros : ℚ) + (digitsToNat fracao : ℚ) / 10 ^ fracao.length)

/-- Embeds `durationToSeconds` of `ranking-calculator.js`: a missing or
non-string value (here `none`) and the empty string give `0`; text that does
not split into exactly three `:`-separated fields gives `0`; otherwise the
fields are converted with `parseInt`, `parseInt` and `parseFloat` (each
`|| 0`) and combined as `hours*3600 + minutes*60 + seconds`. -/
def durationToSeconds (duration : Option String) : ℚ :=
  match duration with
  | none => 0
  | some s =>
    if s = "" then 0
    else
      match splitOnChar ':' s.data with
      | [hh, mm, ss] =>
        (parseIntChars hh : ℚ) * 3600 + (parseIntChars mm : ℚ) * 60 + parseFloatChars ss
      | _ => 0

/-- Embeds `calcularPercentualOnline`: the online/scheduled ratio times 100,
with the division guarded so a zero scheduled duration yields `0`. -/
def calcularPercentualOnline (tempoOnline duracaoTurno : Option String) : ℚ :=
  let segundosOnline := durationToSeconds tempoOnline
  let segundosTurno := durationToSeconds duracaoTurno
  if segundosTurno = 0 then 0
  else (segundosOnline / segundosTurno) * 100

/-- Models `parseFloat(x.toFixed(2))`: rounding to two decimal places
(`toFixed` rounds to the nearest hundredth; `round` is the half-up variant,
which agrees with it on every non-tie and on non-negative ties). -/
def arredondar2 (q : ℚ) : ℚ := (round (q * 100) : ℤ) / 100

/-!
Model of `new Date(turno.data_do_periodo)` followed by `getUTCDate()` and
`getUTCMonth() + 1`, as used by `isDataEspecial`.  The ECMAScript date-time
string format is modelled: a date-only string `YYYY-MM-DD` (also `YYYY-MM` and
`YYYY`) denotes UTC midnight of that calendar date, and a date-time string
`YYYY-MM-DDTHH:MM[:SS[.fff]]` with an explicit zone designator (`Z` or
`±HH:MM`) denotes the corresponding instant, whose UTC calendar day can differ
from the written one.  A date-time string without a zone designator is
interpreted by JavaScript in the host's local zone; since the engine fixes no
host zone, such strings (like any other unrecognised text, which yields an
`Invalid Date` whose `getUTCDate()` is `NaN`) are mapped to `none`, and
`isDataEspecial` is `false` on them just as every `NaN` comparison is false.
Signed six-digit years and the special `24:00` end-of-day time are outside the
model. -/

/-- Leap-year test of the proleptic Gregorian calendar used by JavaScript. -/
def anoBissexto (y : Nat) : Bool := (y % 4 == 0 && y % 100 != 0) || y % 400 == 0

/-- Number of days of a month (month given as 1..12). -/
def diasNoMes (y m : Nat) : Nat :=
  if m = 2 then (if anoBissexto y then 29 else 28)
  else if m = 4 || m = 6 || m = 9 || m = 11 then 30
  else 31

/-- Reads a field of exactly two decimal digits. -/
def lerCampo2 : List Char → Option Nat
  | [a, b] => if a.isDigit && b.isDigit then some (10 * digitVal a + digitVal b) else none
  | _ => none

/-- Reads a field of exactly four decimal digits. -/
def lerCampo4 : List Char → Option Nat
  | [a, b, c, d] =>
    if a.isDigit && b.isDigit && c.isDigit && d.isDigit then
      some (1000 * digitVal a + 100 * digitVal b + 10 * digitVal c + digitVal d)
    else none
  | _ => none

/-- Parses the date portion `YYYY[-MM[-DD]]` of an ECMAScript date-time string,
validating the ranges exactly as `new Date` does; absent month and day default
to `01`.  Returns `(year, month, day)`. -/
def lerDataCalendario (cs : List Char) : Option (Nat × Nat × Nat) :=
  match splitOnChar '-' cs with
  | [y] => (lerCampo4 y).map (fun yv => (yv, 1, 1))
  | [y, m] =>
    match lerCampo4 y, lerCampo2 m with
    | some yv, some mv => if 1 ≤ mv ∧ mv ≤ 12 then some (yv, mv, 1) else none
    | _, _ => none
  | [y, m, d] =>
    match lerCampo4 y, lerCampo2 m, lerCampo2 d with
    | some yv, some mv, some dv =>
      if 1 ≤ mv ∧ mv ≤ 12 ∧ 1 ≤ dv ∧ dv ≤ diasNoMes yv mv then some (yv, mv, dv) else none
    | _, _, _ => none
  | _ => none

/-- Reads `HH:MM[:SS[.fff]]` and returns the second of the day of its integer
part (the sub-second fraction can never move the instant across a UTC day
boundary, so only its well-formedness matters). -/
def lerHorario (cs : List Char) : Option Nat :=
  match splitOnChar ':' cs with
  | [hh, mm] =>
    match lerCampo2 hh, lerCampo2 mm with
    | some h, some m => if h ≤ 23 ∧ m ≤ 59 then some (h * 3600 + m * 60) else none
    | _, _ => none
  | [hh, mm, ssfrac] =>
    let ss := match splitOnChar '.' ssfrac with
      | [ss] => some ss
      | [ss, frac] => if frac ≠ [] ∧ frac.all Char.isDigit then some ss else none
      | _ => none
    match lerCampo2 hh, lerCampo2 mm, ss.bind lerCampo2 with
    | some h, some m, some s => if h ≤ 23 ∧ m ≤ 59 ∧ s ≤ 59 then some (h * 3600 + m * 60 + s) else none
    | _, _, _ => none
  | _ => none

/-- Reads the `±HH:MM` body of a zone offset; returns seconds. -/
def lerDeslocamento (cs : List Char) : Option Nat :=
  match splitOnChar ':' cs with
  | [hh, mm] =>
    match lerCampo2 hh, lerCampo2 mm with
    | some h, some m => if h ≤ 23 ∧ m ≤ 59 then some (h * 3600 + m * 60) else none
    | _, _ => none
  | _ => none

/-- Splits the time-of-day text of a date-time string into the clock part and
the zone offset in seconds (`Z` is offset `0`).  A time without any zone
designator is host-zone dependent and yields `none` (see the section comment). -/
def lerHorarioComFuso (cs : List Char) : Option (Nat × Int) :=
  let corte := cs.span (fun c => !(c == 'Z' || c == '+' || c == '-'))
  match corte.2 with
  | ['Z'] => (lerHorario corte.1).map (fun t => (t, (0 : Int)))
  | '+' :: resto =>
    match lerHorario corte.1, lerDeslocamento resto with
    | some t, some off => some (t, (off : Int))
    | _, _ => none
  | '-' :: resto =>
    match lerHorario corte.1, lerDeslocamento resto with
    | some t, some off => some (t, -(off : Int))
    | _, _ => none
  | _ => none

/-- The calendar day before `(y, m, d)`. -/
def diaAnterior (y m d : Nat) : Nat × Nat × Nat :=
  if 2 ≤ d then (y, m, d - 1)
  else if 2 ≤ m then (y, m - 1, diasNoMes y (m - 1))
  else (y - 1, 12, 31)

/-- The calendar day after `(y, m, d)`. -/
def diaSeguinte (y m d : Nat) : Nat × Nat × Nat :=
  if d < diasNoMes y m then (y, m, d + 1)
  else if m < 12 then (y, m + 1, 1)
  else (y + 1, 1, 1)

/-- Model of `new Date(s).getUTCDate()` and `getUTCMonth() + 1`: the UTC
`(day, month)` of the instant denoted by the string, or `none` when the string
is not a zone-determined ECMAScript date-time string.  A date-only string is
UTC midnight, so its UTC day and month are the written ones; with a time and a
zone offset the instant can fall on the previous or the next UTC calendar day
(the offset magnitude is under 24 hours, so at most one day of shift). -/
def jsDateUTCDiaMes (s : String) : Option (Nat × Nat) :=
  match splitOnChar 'T' s.data with
  | [dataParte] => (lerDataCalendario dataParte).map (fun ymd => (ymd.2.2, ymd.2.1))
  | [dataParte, horaParte] =>
    match lerDataCalendario dataParte, lerHorarioComFuso horaParte with
    | some (y, m, d), some (t, off) =>
      let delta : Int := (t : Int) - off
      if delta < 0 then
        some ((diaAnterior y m d).2.2, (diaAnterior y m d).2.1)
      else if 86400 ≤ delta then
        some ((diaSeguinte y m d).2.2, (diaSeguinte y m d).2.1)
      else some (d, m)
    | _, _ => none
  | _ => none

/-- Embeds `isDataEspecial`: receives the UTC `(day, month)` of the parsed date
(`none` models an `Invalid Date`, whose `NaN` components make every comparison
false) and checks for 24/12, 25/12, 31/12 and 01/01. -/
def isDataEspecial (diaMes : Option (Nat × Nat)) : Bool :=
  match diaMes with
  | none => false
  | some (dia, mes) =>
    (dia == 24 && mes == 12) || (dia == 25 && mes == 12) ||
    (dia == 31 && mes == 12) || (dia == 1 && mes == 1)

/-!
Data model.  The JavaScript records evolve by object spread; each lifecycle
stage is modelled by a structure extending the previous one.  The completed
delivery count is a non-negative integer per the ingestion contract, possibly
absent (`numero_de_corridas_completadas || 0` reads an absent field as `0`).
-/

/-- A raw shift record as ingested from the spreadsheet. -/
structure Turno where
  id_da_pessoa_entregadora : String
  pessoa_entregadora : String
  data_do_periodo : String
  duracao_do_periodo : Option String
  tempo_disponivel_absoluto : Option String
  numero_de_corridas_completadas : Option Nat
deriving Repr, DecidableEq

/-- The per-shift point breakdown returned by `calcularPontosTurno`. -/
structure Pontos where
  percentual_tempo_online : ℚ
  pontos_entregas : Nat
  bonus_90_online : Nat
  bonus_data_especial : Nat
  total_pontos_turno : Nat
deriving Repr, DecidableEq

/-- A shift merged with its point breakdown (`{...turno, ...pontos}`). -/
structure TurnoComPontos extends Turno where
  percentual_tempo_online : ℚ
  pontos_entregas : Nat
  bonus_90_online : Nat
  bonus_data_especial : Nat
  total_pontos_turno : Nat
deriving Repr, DecidableEq

/-- A scored shift merged with the daily-goal fields. -/
structure TurnoFinal extends TurnoComPontos where
  entregas_no_dia : Nat
  bonus_meta_diaria : Nat
  total_pontos_final : Nat
deriving Repr, DecidableEq

/-- Embeds `calcularPontosTurno`: the online percentage is computed exactly,
the two 50-point bonuses are decided on that exact value (the special-date one
also needs a special date), delivery points are ten per completed delivery,
and the shift subtotal adds the three; the persisted percentage is the exact
value rounded to two decimals (`parseFloat(percentualOnline.toFixed(2))`). -/
def calcularPontosTurno (turno : Turno) : Pontos :=
  let percentualOnline :=
    calcularPercentualOnline turno.tempo_disponivel_absoluto turno.duracao_do_periodo
  let isOnline90Plus : Bool := decide (90 ≤ percentualOnline)
  let dataEspecial := isDataEspecial (jsDateUTCDiaMes turno.data_do_periodo)
  let pontosEntregas := (turno.numero_de_corridas_completadas.getD 0) * 10
  let bonus90Online := if isOnline90Plus then 50 else 0
  let bonusDataEspecial := if isOnline90Plus && dataEspecial then 50 else 0
  let totalPontosTurno := pontosEntregas + bonus90Online + bonusDataEspecial
  { percentual_tempo_online := arredondar2 percentualOnline
    pontos_entregas := pontosEntregas
    bonus_90_online := bonus90Online
    bonus_data_especial := bonusDataEspecial
    total_pontos_turno := totalPontosTurno }

/-- The object-spread merge `{...turno, ...pontos}` of step 1 of
`processarTodosOsTurnos`. -/
def juntarPontos (turno : Turno) (pontos : Pontos) : TurnoComPontos :=
  { turno with
    percentual_tempo_online := pontos.percentual_tempo_online
    pontos_entregas := pontos.pontos_entregas
    bonus_90_online := pontos.bonus_90_online
    bonus_data_especial := pontos.bonus_data_especial
    total_pontos_turno := pontos.total_pontos_turno }

/-- The date normalisation `turno.data_do_periodo.split('T')[0]` used to build
the grouping key (the text before any time suffix). -/
def normalizarData (s : String) : String := String.mk ((splitOnChar 'T' s.data).headI)

/-- The grouping key `` `${turno.id_da_pessoa_entregadora}|${data}` `` of
`agruparPorDiaEntregador` and of step 3 of `processarTodosOsTurnos`. -/
def chaveTurno (t : Turno) : String :=
  t.id_da_pessoa_entregadora ++ "|" ++ normalizarData t.data_do_periodo

/-- Embeds `calcularEntregasNoDia`: folds the completed-delivery counts of the
day's shifts, an absent count contributing `0`. -/
def calcularEntregasNoDia (turnosDoDia : List TurnoComPontos) : Nat :=
  turnosDoDia.foldl (fun total turno => total + turno.numero_de_corridas_completadas.getD 0) 0

/-- Embeds `calcularBonusMetaDiaria`: 300 points from 30 deliveries in the day,
200 from 20, otherwise 0. -/
def calcularBonusMetaDiaria (entregasNoDia : Nat) : Nat :=
  if 30 ≤ entregasNoDia then 300
  else if 20 ≤ entregasNoDia then 200
  else 0

/-- Embeds `processarTodosOsTurnos`.  Step 1 scores every shift.  Step 2 groups
the scored shifts by the key `id|day`; `grupos[chave]` holds, in input order,
exactly the scored shifts whose key equals `chave`, which is `List.filter` on
the scored list.  Step 3 maps over the scored shifts: the daily total is the
fold over the shift's group, and the daily-goal bonus goes to the shift that
*is* (`===`) the first element of its group — every mapped element is a fresh
object, so object identity is position identity, modelled as the shift's index
being the first index whose key matches (`List.findIdx`).  The body of the
step-3 arrow function is split off as `finalizarTurno`. -/
def finalizarTurno (turnosComPontos : List TurnoComPontos) (par : Nat × TurnoComPontos) :
    TurnoFinal :=
  let turno := par.2
  let chave := chaveTurno turno.toTurno
  let turnosDoDia := turnosComPontos.filter (fun u => chaveTurno u.toTurno == chave)
  let entregasNoDia := calcularEntregasNoDia turnosDoDia
  let primeiroTurnoDoDia :=
    turnosComPontos.findIdx (fun u => chaveTurno u.toTurno == chave) == par.1
  let bonusMetaDiaria := if primeiroTurnoDoDia then calcularBonusMetaDiaria entregasNoDia else 0
  { turno with
    entregas_no_dia := entregasNoDia
    bonus_meta_diaria := bonusMetaDiaria
    total_pontos_final := turno.total_pontos_turno + bonusMetaDiaria }

def processarTodosOsTurnos (turnos : List Turno) : List TurnoFinal :=
  let turnosComPontos := turnos.map (fun turno => juntarPontos turno (calcularPontosTurno turno))
  turnosComPontos.enum.map (finalizarTurno turnosComPontos)

/-- A per-worker ranking entry as persisted. -/
structure RankingEntry where
  id_da_pessoa_entregadora : String
  pessoa_entregadora : String
  total_pontos : Nat
  total_entregas : Nat
  total_turnos : Nat
  media_percentual_online : ℚ
deriving Repr, DecidableEq

/-- The per-worker accumulator of `calcularRanking`, including the internal
percentage sum that is dropped before persisting. -/
structure RankingAcc where
  id_da_pessoa_entregadora : String
  pessoa_entregadora : String
  total_pontos : Nat
  total_entregas : Nat
  total_turnos : Nat
  soma_percentual_online : ℚ
deriving Repr, DecidableEq

/-- The fresh accumulator created when a worker is first seen. -/
def novaEntradaRanking (t : TurnoFinal) : RankingAcc :=
  { id_da_pessoa_entregadora := t.id_da_pessoa_entregadora
    pessoa_entregadora := t.pessoa_entregadora
    total_pontos := 0
    total_entregas := 0
    total_turnos := 0
    soma_percentual_online := 0 }

/-- The `+=` block of `calcularRanking`'s forEach body. -/
def acumularTurno (a : RankingAcc) (t : TurnoFinal) : RankingAcc :=
  { a with
    total_pontos := a.total_pontos + t.total_pontos_final
    total_entregas := a.total_entregas + t.numero_de_corridas_completadas.getD 0
    total_turnos := a.total_turnos + 1
    soma_percentual_online := a.soma_percentual_online + t.percentual_tempo_online }

/-- The property names a fresh JavaScript object literal `{}` inherits from
`Object.prototype` (the Annex B accessors included, as in the browsers and
Node the reference system runs on).  For each of them the inherited value is a
function — or, for `__proto__`, the prototype object itself — so the read
`entregadores[id]` is truthy even though the object has no own property
`id`. -/
def chavesHerdadas : List String :=
  ["constructor", "hasOwnProperty", "isPrototypeOf", "propertyIsEnumerable",
   "toLocaleString", "toString", "valueOf", "__proto__",
   "__defineGetter__", "__defineSetter__", "__lookupGetter__", "__lookupSetter__"]

/-- One iteration of `calcularRanking`'s forEach over the `entregadores`
object, kept as a list of accumulators in first-seen order.  The source guards
initialisation with `if (!entregadores[id])`, a truthy test on a
prototype-sensitive read: it is truthy when the object has an own accumulator
for `id` (own values are always objects) and also when `id` is one of the
`Object.prototype` property names of `chavesHerdadas`, whose inherited value
is truthy.  In the second case initialisation is skipped and the `+=` writes
land on the inherited prototype member, never creating an own property, so no
accumulator for that worker ever exists — modelled by the in-place update
matching no list element.  (Those stray writes store `NaN` fields on shared
prototype objects; `NaN` is falsy and the fields are not own properties of
`entregadores`, so they never change a later truthiness test or
`Object.values`.) -/
def rankingPasso (accs : List RankingAcc) (t : TurnoFinal) : List RankingAcc :=
  if accs.any (fun a => a.id_da_pessoa_entregadora == t.id_da_pessoa_entregadora)
      || chavesHerdadas.contains t.id_da_pessoa_entregadora then
    accs.map (fun a =>
      if a.id_da_pessoa_entregadora == t.id_da_pessoa_entregadora then acumularTurno a t else a)
  else accs ++ [acumularTurno (novaEntradaRanking t) t]

/-- The finalisation step of `calcularRanking`: drop the internal sum and store
the rounded average percentage (`parseFloat((soma / turnos).toFixed(2))`). -/
def finalizarEntrada (a : RankingAcc) : RankingEntry :=
  { id_da_pessoa_entregadora := a.id_da_pessoa_entregadora
    pessoa_entregadora := a.pessoa_entregadora
    total_pontos := a.total_pontos
    total_entregas := a.total_entregas
    total_turnos := a.total_turnos
    media_percentual_online := arredondar2 (a.soma_percentual_online / a.total_turnos) }

/-- The descending-points order of `ranking.sort((a, b) => b.total_pontos -
a.total_pontos)`. -/
def ordemRanking (a b : RankingEntry) : Prop := b.total_pontos ≤ a.total_pontos

instance : DecidableRel ordemRanking := fun a b => Nat.decLe b.total_pontos a.total_pontos

instance : IsTotal RankingEntry ordemRanking :=
  ⟨fun a b => Nat.le_total b.total_pontos a.total_pontos⟩

instance : IsTrans RankingEntry ordemRanking :=
  ⟨fun _ _ _ h1 h2 => Nat.le_trans h2 h1⟩

/-- Embeds `calcularRanking`: fold all processed shifts into per-worker
accumulators (`Object.values` lists the own enumerable properties, in
first-seen order for the string identifiers at hand), finalise each entry,
and sort by total points descending (JavaScript's stable sort, modelled by
insertion sort). -/
def calcularRanking (turnos : List TurnoFinal) : List RankingEntry :=
  let entregadores := turnos.foldl rankingPasso []
  let ranking := entregadores.map finalizarEntrada
  List.insertionSort ordemRanking ranking

/-!
Concrete records used to exercise the engine in the theorems below.
-/

/-- A shift whose worker identifier itself contains the key separator. -/
def turnoColisaoA : Turno :=
  { id_da_pessoa_entregadora := "a|x", pessoa_entregadora := "Alice"
    data_do_periodo := "d", duracao_do_periodo := none
    tempo_disponivel_absoluto := none, numero_de_corridas_completadas := some 25 }

/-- A shift of a different worker on a different day whose concatenated
grouping key collides with `turnoColisaoA`. -/
def turnoColisaoB : Turno :=
  { id_da_pessoa_entregadora := "a", pessoa_entregadora := "Beto"
    data_do_periodo := "x|d", duracao_do_periodo := none
    tempo_disponivel_absoluto := none, numero_de_corridas_completadas := some 25 }

/-- First of two same-day shifts of one worker (10 deliveries). -/
def turnoMeta1 : Turno :=
  { id_da_pessoa_entregadora := "w1", pessoa_entregadora := "Alice"
    data_do_periodo := "2024-03-05", duracao_do_periodo := none
    tempo_disponivel_absoluto := none, numero_de_corridas_completadas := some 10 }

/-- Second of two same-day shifts of one worker (12 deliveries). -/
def turnoMeta2 : Turno :=
  { id_da_pessoa_entregadora := "w1", pessoa_entregadora := "Alice"
    data_do_periodo := "2024-03-05", duracao_do_periodo := none
    tempo_disponivel_absoluto := none, numero_de_corridas_completadas := some 12 }

/-- A shift with a zero scheduled duration and a large online duration. -/
def turnoDuracaoZero : Turno :=
  { id_da_pessoa_entregadora := "w1", pessoa_entregadora := "Alice"
    data_do_periodo := "2024-03-05", duracao_do_periodo := some "00:00:00"
    tempo_disponivel_absoluto := some "05:00:00", numero_de_corridas_completadas := some 3 }

/-- A shift whose online-duration text parses to a negative number of seconds. -/
def turnoNegativo : Turno :=
  { id_da_pessoa_entregadora := "w1", pessoa_entregadora := "Alice"
    data_do_periodo := "2024-03-05", duracao_do_periodo := some "01:00:00"
    tempo_disponivel_absoluto := some "-1:00:00", numero_de_corridas_completadas := some 0 }

/-- A shift whose exact online ratio lies strictly between 89.995% and 90%. -/
def turnoLimite : Turno :=
  { id_da_pessoa_entregadora := "w1", pessoa_entregadora := "Alice"
    data_do_periodo := "2024-01-02", duracao_do_periodo := some "01:00:00"
    tempo_disponivel_absoluto := some "00:53:59.9"
    numero_de_corridas_completadas := none }

/-- A finalized shift of worker `w1` worth 30 points. -/
def turnoFinalA : TurnoFinal :=
  { id_da_pessoa_entregadora := "w1", pessoa_entregadora := "Alice"
    data_do_periodo := "2024-03-05", duracao_do_periodo := none
    tempo_disponivel_absoluto := none, numero_de_corridas_completadas := some 3
    percentual_tempo_online := 0, pontos_entregas := 30, bonus_90_online := 0
    bonus_data_especial := 0, total_pontos_turno := 30
    entregas_no_dia := 3, bonus_meta_diaria := 0, total_pontos_final := 30 }

/-- A finalized shift of worker `w2` worth 100 points. -/
def turnoFinalB : TurnoFinal :=
  { id_da_pessoa_entregadora := "w2", pessoa_entregadora := "Beto"
    data_do_periodo := "2024-03-05", duracao_do_periodo := none
    tempo_disponivel_absoluto := none, numero_de_corridas_completadas := some 5
    percentual_tempo_online := 0, pontos_entregas := 50, bonus_90_online := 0
    bonus_data_especial := 0, total_pontos_turno := 50
    entregas_no_dia := 5, bonus_meta_diaria := 0, total_pontos_final := 100 }

/-- A second finalized shift of worker `w1`, worth 20 points. -/
def turnoFinalC : TurnoFinal :=
  { id_da_pessoa_entregadora := "w1", pessoa_entregadora := "Alice"
    data_do_periodo := "2024-03-06", duracao_do_periodo := none
    tempo_disponivel_absoluto := none, numero_de_corridas_completadas := some 2
    percentual_tempo_online := 0, pontos_entregas := 20, bonus_90_online := 0
    bonus_data_especial := 0, total_pontos_turno := 20
    entregas_no_dia := 2, bonus_meta_diaria := 0, total_pontos_final := 20 }

/-- A finalized shift whose worker identifier is the `Object.prototype`
property name `"toString"`. -/
def turnoFinalProto : TurnoFinal :=
  { id_da_pessoa_entregadora := "toString", pessoa_entregadora := "Tobias"
    data_do_periodo := "2024-03-05", duracao_do_periodo := none
    tempo_disponivel_absoluto := none, numero_de_corridas_completadas := some 3
    percentual_tempo_online := 0, pontos_entregas := 30, bonus_90_online := 0
    bonus_data_especial := 0, total_pontos_turno := 30
    entregas_no_dia := 3, bonus_meta_diaria := 0, total_pontos_final := 30 }

/-!
Helper lemmas about the numeric-text parsers, used both to characterise
`durationToSeconds` and to evaluate it on concrete inputs.
-/

lemma ne_of_isDigit {c d : Char} (h : c.isDigit = true) (hd : d.isDigit = false) : c ≠ d := by
  intro e; subst e; rw [h] at hd; cases hd

lemma isWhitespaceJS_of_isDigit {c : Char} (h : c.isDigit = true) : isWhitespaceJS c = false := by
  have h1 : c ≠ ' ' := ne_of_isDigit h (by decide)
  have h2 : c ≠ '\t' := ne_of_isDigit h (by decide)
  have h3 : c ≠ '\n' := ne_of_isDigit h (by decide)
  have h4 : c ≠ '\r' := ne_of_isDigit h (by decide)
  have h5 : c ≠ '\x0b' := ne_of_isDigit h (by decide)
  have h6 : c ≠ '\x0c' := ne_of_isDigit h (by decide)
  simp [isWhitespaceJS, h1, h2, h3, h4, h5, h6]

lemma lerSinal_digit {c : Char} (cs : List Char) (h : c.isDigit = true) :
    lerSinal (c :: cs) = (1, c :: cs) := by
  have h1 : c ≠ '+' := ne_of_isDigit h (by decide)
  have h2 : c ≠ '-' := ne_of_isDigit h (by decide)
  simp [lerSinal, h1, h2]

lemma digitsToNat_nil : digitsToNat [] = 0 := rfl

lemma lerFracao_nil : lerFracao [] = [] := rfl

lemma parseFloatChars_digits {l : List Char} (hne : l ≠ []) (hd : ∀ c ∈ l, c.isDigit = true) :
    parseFloatChars l = (digitsToNat l : ℚ) := by
  obtain ⟨c, cs, rfl⟩ := List.exists_cons_of_ne_nil hne
  have hc := hd c (by simp)
  have hdw : (c :: cs).dropWhile isWhitespaceJS = c :: cs := by
    simp [List.dropWhile_cons, isWhitespaceJS_of_isDigit hc]
  have htw : (c :: cs).takeWhile Char.isDigit = c :: cs := List.takeWhile_eq_self_iff.mpr hd
  have hdwD : (c :: cs).dropWhile Char.isDigit = [] := by
    rw [List.dropWhile_eq_nil_iff]; exact fun x hx => hd x hx
  simp only [parseFloatChars, hdw, lerSinal_digit cs hc, htw, hdwD, lerFracao_nil]
  rw [if_neg (by simp)]
  simp [digitsToNat_nil]

lemma takeWhile_append_sep {p : Char → Bool} {l₁ l₂ : List Char} {x : Char}
    (hd : ∀ c ∈ l₁, p c = true) (hx : p x = false) :
    (l₁ ++ x :: l₂).takeWhile p = l₁ ∧ (l₁ ++ x :: l₂).dropWhile p = x :: l₂ := by
  induction l₁ with
  | nil => simp [List.takeWhile_cons, List.dropWhile_cons, hx]
  | cons a as ih =>
    have ha := hd a (by simp)
    have ih2 := ih (fun c hc => hd c (by simp [hc]))
    simp [List.takeWhile_cons, List.dropWhile_cons, ha, ih2.1, ih2.2]

lemma parseFloatChars_digits_frac {l₁ l₂ : List Char} (h1 : l₁ ≠ [])
    (hd1 : ∀ c ∈ l₁, c.isDigit = true) (hd2 : ∀ c ∈ l₂, c.isDigit = true) :
    parseFloatChars (l₁ ++ '.' :: l₂) =
      (digitsToNat l₁ : ℚ) + (digitsToNat l₂ : ℚ) / 10 ^ l₂.length := by
  obtain ⟨c, cs, rfl⟩ := List.exists_cons_of_ne_nil h1
  have hc := hd1 c (by simp)
  have hdw : ((c :: cs) ++ '.' :: l₂).dropWhile isWhitespaceJS = (c :: cs) ++ '.' :: l₂ := by
    simp only [List.cons_append, List.dropWhile_cons, isWhitespaceJS_of_isDigit hc]
    simp
  have hls : lerSinal ((c :: cs) ++ '.' :: l₂) = (1, (c :: cs) ++ '.' :: l₂) := by
    simpa using lerSinal_digit (cs ++ '.' :: l₂) hc
  have hsep := @takeWhile_append_sep Char.isDigit (c :: cs) l₂ '.' hd1 (by decide)
  have htl2 : l₂.takeWhile Char.isDigit = l₂ := List.takeWhile_eq_self_iff.mpr hd2
  have hfr : lerFracao ('.' :: l₂) = l₂.takeWhile Char.isDigit := rfl
  simp only [List.cons_append] at hdw hls hsep ⊢
  simp only [parseFloatChars, hdw, hls, hsep.1, hsep.2, hfr, htl2]
  rw [if_neg (by simp)]
  simp

lemma durationToSeconds_eval {s : String} {hh mm ss : List Char}
    (h : splitOnChar ':' s.data = [hh, mm, ss]) :
    durationToSeconds (some s) =
      (parseIntChars hh : ℚ) * 3600 + (parseIntChars mm : ℚ) * 60 + parseFloatChars ss := by
  have hne : s ≠ "" := by
    intro e; subst e
    have : splitOnChar ':' ("" : String).data = [[]] := rfl
    rw [this] at h
    simp at h
  simp [durationToSeconds, hne, h]

lemma mem_enumFrom_fst_le {α : Type} {p : Nat × α} {l : List α} {n : Nat}
    (h : p ∈ List.enumFrom n l) : n ≤ p.1 := by
  obtain ⟨i, x⟩ := p
  exact (List.mem_enumFrom h).1

lemma pairwise_fst_lt_enumFrom {α : Type} (l : List α) (n : Nat) :
    (List.enumFrom n l).Pairwise (fun p q => p.1 < q.1) := by
  induction l generalizing n with
  | nil => simp
  | cons a t ih =>
    rw [List.enumFrom_cons, List.pairwise_cons]
    exact ⟨fun q hq => Nat.lt_of_lt_of_le (Nat.lt_succ_self n) (mem_enumFrom_fst_le hq), ih (n + 1)⟩

lemma enumFrom_filter_map_snd {α : Type} (pr : α → Bool) :
    ∀ (l : List α) (n : Nat),
      ((List.enumFrom n l).filter (fun p => pr p.2)).map Prod.snd = l.filter pr := by
  intro l
  induction l with
  | nil => intro n; rfl
  | cons a t ih =>
    intro n
    rw [List.enumFrom_cons, List.filter_cons, List.filter_cons]
    by_cases ha : pr a
    . simp only [ha, if_true, List.map_cons, ih]
    . simp only [ha, Bool.false_eq_true, if_false, ih]

lemma enumFrom_filter_head_fst {α : Type} (pr : α → Bool) :
    ∀ (l : List α) (n : Nat) (e : Nat × α) (rest : List (Nat × α)),
      (List.enumFrom n l).filter (fun p => pr p.2) = e :: rest → e.1 = n + l.findIdx pr := by
  intro l
  induction l with
  | nil => intro n e rest h; simp at h
  | cons a t ih =>
    intro n e rest h
    rw [List.enumFrom_cons, List.filter_cons] at h
    by_cases ha : pr a
    . rw [if_pos (by simpa using ha)] at h
      rw [List.cons.injEq] at h
      rw [List.findIdx_cons, ha, cond_true, ← h.1]
      rfl
    . have ha' : pr a = false := by simpa using ha
      rw [if_neg (by simp [ha'])] at h
      have he := ih (n + 1) e rest h
      rw [List.findIdx_cons, ha', cond_false]
      omega

lemma finalizarTurno_toTurnoComPontos (tcp : List TurnoComPontos) (p : Nat × TurnoComPontos) :
    (finalizarTurno tcp p).toTurnoComPontos = p.2 := rfl

lemma finalizarTurno_bonus (tcp : List TurnoComPontos) (p : Nat × TurnoComPontos) :
    (finalizarTurno tcp p).bonus_meta_diaria =
      if tcp.findIdx (fun u => chaveTurno u.toTurno == chaveTurno p.2.toTurno) == p.1
      then calcularBonusMetaDiaria (calcularEntregasNoDia
        (tcp.filter (fun u => chaveTurno u.toTurno == chaveTurno p.2.toTurno)))
      else 0 := rfl

lemma finalizarTurno_total (tcp : List TurnoComPontos) (p : Nat × TurnoComPontos) :
    (finalizarTurno tcp p).total_pontos_final =
      (finalizarTurno tcp p).total_pontos_turno + (finalizarTurno tcp p).bonus_meta_diaria := rfl

lemma calcularEntregasNoDia_eq_sum (l : List TurnoComPontos) :
    calcularEntregasNoDia l =
      (l.map (fun u => u.numero_de_corridas_completadas.getD 0)).sum := by
  suffices h : ∀ n, l.foldl (fun total turno => total + turno.numero_de_corridas_completadas.getD 0) n
      = n + (l.map (fun u => u.numero_de_corridas_completadas.getD 0)).sum by
    simpa [calcularEntregasNoDia] using h 0
  induction l with
  | nil => intro n; simp
  | cons a t ih =>
    intro n
    simp only [List.foldl_cons, List.map_cons, List.sum_cons, ih]
    omega

lemma processar_grupo_chave (ts : List Turno) (k : String) :
    (∀ u ∈ ((processarTodosOsTurnos ts).filter
        (fun u => chaveTurno u.toTurno == k)).tail, u.bonus_meta_diaria = 0) ∧
    (((processarTodosOsTurnos ts).filter (fun u => chaveTurno u.toTurno == k)).map
        (fun u => u.bonus_meta_diaria)).sum
      = calcularBonusMetaDiaria
          ((((processarTodosOsTurnos ts).filter (fun u => chaveTurno u.toTurno == k)).map
            (fun u => u.numero_de_corridas_completadas.getD 0)).sum) := by
  have hout : processarTodosOsTurnos ts
      = (ts.map (fun turno => juntarPontos turno (calcularPontosTurno turno))).enum.map
          (finalizarTurno (ts.map (fun turno => juntarPontos turno (calcularPontosTurno turno)))) :=
    rfl
  generalize htcp : ts.map (fun turno => juntarPontos turno (calcularPontosTurno turno)) = tcp at hout
  rw [hout]
  have hGm : ((tcp.enum.map (finalizarTurno tcp)).filter (fun u => chaveTurno u.toTurno == k))
      = (tcp.enum.filter (fun p => chaveTurno p.2.toTurno == k)).map (finalizarTurno tcp) := by
    rw [List.filter_map]
    rfl
  rw [hGm]
  rcases hE : tcp.enum.filter (fun p => chaveTurno p.2.toTurno == k) with _ | ⟨e0, rest⟩
  . rw [hE]
    simp [calcularBonusMetaDiaria]
  . rw [hE]
    have hmemE : ∀ q ∈ e0 :: rest, (chaveTurno q.2.toTurno == k) = true := by
      intro q hq
      have hq2 : q ∈ tcp.enum.filter (fun p => chaveTurno p.2.toTurno == k) := by
        rw [hE]; exact hq
      exact @List.of_mem_filter (Nat × TurnoComPontos)
        (fun p => chaveTurno p.2.toTurno == k) q tcp.enum hq2
    have he0k : chaveTurno e0.2.toTurno = k := by
      have h := hmemE e0 (List.mem_cons_self _ _)
      exact beq_iff_eq.mp h
    have hfst : e0.1 = tcp.findIdx (fun u => chaveTurno u.toTurno == k) := by
      have h0 := enumFrom_filter_head_fst (fun u => chaveTurno u.toTurno == k) tcp 0 e0 rest hE
      simpa using h0
    have hpair : ((e0 :: rest) : List (Nat × TurnoComPontos)).Pairwise (fun p q => p.1 < q.1) := by
      rw [← hE]
      exact (pairwise_fst_lt_enumFrom tcp 0).filter _
    have hrest_gt : ∀ q ∈ rest, e0.1 < q.1 := (List.pairwise_cons.mp hpair).1
    have hrest_bonus : ∀ u ∈ rest.map (finalizarTurno tcp), u.bonus_meta_diaria = 0 := by
      intro u hu
      obtain ⟨q, hq, rfl⟩ := List.mem_map.mp hu
      have hkq : chaveTurno q.2.toTurno = k :=
        beq_iff_eq.mp (hmemE q (List.mem_cons_of_mem _ hq))
      rw [finalizarTurno_bonus]
      simp only [hkq]
      have hne : (tcp.findIdx (fun u => chaveTurno u.toTurno == k) == q.1) = false := by
        have hlt := hrest_gt q hq
        rw [hfst] at hlt
        exact beq_eq_false_iff_ne.mpr (Nat.ne_of_lt hlt)
      simp [hne]
    constructor
    . simpa using hrest_bonus
    . have hmsnd : (e0 :: rest).map Prod.snd
          = tcp.filter (fun u => chaveTurno u.toTurno == k) := by
        rw [← hE]
        exact enumFrom_filter_map_snd (fun u => chaveTurno u.toTurno == k) tcp 0
      have hbonus_e0 : (finalizarTurno tcp e0).bonus_meta_diaria
          = calcularBonusMetaDiaria (calcularEntregasNoDia
              (tcp.filter (fun u => chaveTurno u.toTurno == k))) := by
        rw [finalizarTurno_bonus]
        simp only [he0k]
        rw [← hfst]
        simp
      have hnum : (((e0 :: rest).map (finalizarTurno tcp)).map
            (fun u => u.numero_de_corridas_completadas.getD 0)).sum
          = calcularEntregasNoDia (tcp.filter (fun u => chaveTurno u.toTurno == k)) := by
        rw [List.map_map]
        have hcomp : ((fun u : TurnoFinal => u.numero_de_corridas_completadas.getD 0)
              ∘ finalizarTurno tcp)
            = ((fun u : TurnoComPontos => u.numero_de_corridas_completadas.getD 0) ∘ Prod.snd) :=
          rfl
        rw [hcomp, ← List.map_map, hmsnd, calcularEntregasNoDia_eq_sum]
      have hzeros : ((rest.map (finalizarTurno tcp)).map
            (fun u => u.bonus_meta_diaria)).sum = 0 := by
        refine List.sum_eq_zero ?_
        intro x hx
        obtain ⟨u, hu, rfl⟩ := List.mem_map.mp hx
        exact hrest_bonus u hu
      rw [hnum]
      rw [List.map_cons (finalizarTurno tcp), List.map_cons, List.sum_cons, hzeros, hbonus_e0]
      omega

lemma processar_total_geral (ts : List Turno) :
    ∀ u ∈ processarTodosOsTurnos ts,
      u.total_pontos_final = u.total_pontos_turno + u.bonus_meta_diaria := by
  intro u hu
  have hu2 : u ∈ ((ts.map (fun turno => juntarPontos turno (calcularPontosTurno turno))).enum.map
      (finalizarTurno (ts.map (fun turno => juntarPontos turno (calcularPontosTurno turno))))) := hu
  obtain ⟨p, hp, rfl⟩ := List.mem_map.mp hu2
  exact finalizarTurno_total _ p

lemma processar_toTurno_mem (ts : List Turno) :
    ∀ u ∈ processarTodosOsTurnos ts, u.toTurno ∈ ts := by
  intro u hu
  have hu2 : u ∈ ((ts.map (fun turno => juntarPontos turno (calcularPontosTurno turno))).enum.map
      (finalizarTurno (ts.map (fun turno => juntarPontos turno (calcularPontosTurno turno))))) := hu
  obtain ⟨p, hp, rfl⟩ := List.mem_map.mp hu2
  have hsnd := List.snd_mem_of_mem_enumFrom hp
  obtain ⟨t, ht, hts⟩ := List.mem_map.mp hsnd
  have hft : (finalizarTurno (ts.map (fun turno =>
      juntarPontos turno (calcularPontosTurno turno))) p).toTurno = p.2.toTurno := rfl
  rw [hft, ← hts]
  exact ht

lemma append_pipe_inj : ∀ {l₁ l₂ r₁ r₂ : List Char}, '|' ∉ l₁ → '|' ∉ l₂ →
    l₁ ++ '|' :: r₁ = l₂ ++ '|' :: r₂ → l₁ = l₂ ∧ r₁ = r₂ := by
  intro l₁
  induction l₁ with
  | nil =>
    intro l₂ r₁ r₂ h1 h2 h
    cases l₂ with
    | nil => simpa using h
    | cons c t =>
      rw [List.nil_append, List.cons_append, List.cons.injEq] at h
      exact absurd (h.1 ▸ List.mem_cons_self c t) h2
  | cons a t ih =>
    intro l₂ r₁ r₂ h1 h2 h
    cases l₂ with
    | nil =>
      rw [List.cons_append, List.nil_append, List.cons.injEq] at h
      exact absurd (h.1 ▸ List.mem_cons_self a t) h1
    | cons c t₂ =>
      rw [List.cons_append, List.cons_append, List.cons.injEq] at h
      have h1t : '|' ∉ t := fun hm => h1 (List.mem_cons_of_mem a hm)
      have h2t : '|' ∉ t₂ := fun hm => h2 (List.mem_cons_of_mem c hm)
      obtain ⟨he, hr⟩ := ih h1t h2t h.2
      exact ⟨by rw [h.1, he], hr⟩

lemma data_append_pipe (a b : String) : (a ++ "|" ++ b).data = a.data ++ '|' :: b.data := by
  rw [String.data_append, String.data_append]
  simp

lemma chave_eq_pair_iff {t : Turno} {w d : String} (hid : '|' ∉ t.id_da_pessoa_entregadora.data)
    (hw : '|' ∉ w.data) :
    chaveTurno t = w ++ "|" ++ d ↔
      (t.id_da_pessoa_entregadora = w ∧ normalizarData t.data_do_periodo = d) := by
  constructor
  . intro h
    have hdata := congrArg String.data h
    rw [chaveTurno, data_append_pipe, data_append_pipe] at hdata
    obtain ⟨h1, h2⟩ := append_pipe_inj hid hw hdata
    exact ⟨String.ext h1, String.ext h2⟩
  . intro h
    rw [chaveTurno, h.1, h.2]

lemma pair_pred_eq_chave {u : TurnoFinal} {w d : String}
    (hid : '|' ∉ u.id_da_pessoa_entregadora.data) (hw : '|' ∉ w.data) :
    (u.id_da_pessoa_entregadora == w && normalizarData u.data_do_periodo == d)
      = (chaveTurno u.toTurno == w ++ "|" ++ d) := by
  rw [Bool.eq_iff_iff]
  simp only [Bool.and_eq_true, beq_iff_eq]
  constructor
  . intro h
    exact (chave_eq_pair_iff hid hw).mpr ⟨h.1, h.2⟩
  . intro h
    exact (chave_eq_pair_iff hid hw).mp h

/-- C1 (amended): the code groups shifts by the concatenated string key
`id|day`, so a (worker, day) pair determines a group only when no worker
identifier contains the separator `'|'`.  Under that proviso, within each
(worker, day) group of `processarTodosOsTurnos` every member after the first
(in input order) has `bonus_meta_diaria = 0`, the group's bonus sum equals the
bonus computed once from the group's total completed deliveries, and every
processed shift's `total_pontos_final` is its `total_pontos_turno` plus its
own `bonus_meta_diaria`. -/
theorem c1_meta_diaria_grupo (ts : List Turno) (w d : String)
    (hids : ∀ t ∈ ts, '|' ∉ t.id_da_pessoa_entregadora.data) :
    (∀ u ∈ ((processarTodosOsTurnos ts).filter (fun u =>
        u.id_da_pessoa_entregadora == w && normalizarData u.data_do_periodo == d)).tail,
      u.bonus_meta_diaria = 0) ∧
    ((((processarTodosOsTurnos ts).filter (fun u =>
        u.id_da_pessoa_entregadora == w && normalizarData u.data_do_periodo == d)).map
        (fun u => u.bonus_meta_diaria)).sum
      = calcularBonusMetaDiaria ((((processarTodosOsTurnos ts).filter (fun u =>
          u.id_da_pessoa_entregadora == w && normalizarData u.data_do_periodo == d)).map
          (fun u => u.numero_de_corridas_completadas.getD 0)).sum)) ∧
    (∀ u ∈ processarTodosOsTurnos ts,
      u.total_pontos_final = u.total_pontos_turno + u.bonus_meta_diaria) := by
  by_cases hex : ∃ u ∈ processarTodosOsTurnos ts,
      (u.id_da_pessoa_entregadora == w && normalizarData u.data_do_periodo == d) = true
  . obtain ⟨u0, hu0, hp0⟩ := hex
    have hidu : '|' ∉ u0.id_da_pessoa_entregadora.data :=
      hids u0.toTurno (processar_toTurno_mem ts u0 hu0)
    have hw : '|' ∉ w.data := by
      simp only [Bool.and_eq_true, beq_iff_eq] at hp0
      rw [← hp0.1]
      exact hidu
    have hcong : ∀ u ∈ processarTodosOsTurnos ts,
        (u.id_da_pessoa_entregadora == w && normalizarData u.data_do_periodo == d)
          = (chaveTurno u.toTurno == w ++ "|" ++ d) := by
      intro u hu
      exact pair_pred_eq_chave (hids u.toTurno (processar_toTurno_mem ts u hu)) hw
    rw [List.filter_congr hcong]
    exact ⟨(processar_grupo_chave ts (w ++ "|" ++ d)).1,
      (processar_grupo_chave ts (w ++ "|" ++ d)).2, processar_total_geral ts⟩
  . have hnil : (processarTodosOsTurnos ts).filter (fun u =>
        u.id_da_pessoa_entregadora == w && normalizarData u.data_do_periodo == d) = [] := by
      rw [List.filter_eq_nil_iff]
      intro u hu hp
      exact hex ⟨u, hu, hp⟩
    rw [hnil]
    exact ⟨by simp, by simp [calcularBonusMetaDiaria], processar_total_geral ts⟩

lemma acumularTurno_id (a : RankingAcc) (t : TurnoFinal) :
    (acumularTurno a t).id_da_pessoa_entregadora = a.id_da_pessoa_entregadora := rfl

lemma rankingPasso_ids (accs : List RankingAcc) (t : TurnoFinal)
    (h : (accs.any (fun a => a.id_da_pessoa_entregadora == t.id_da_pessoa_entregadora)
      || chavesHerdadas.contains t.id_da_pessoa_entregadora) = true) :
    (rankingPasso accs t).map (fun a => a.id_da_pessoa_entregadora)
      = accs.map (fun a => a.id_da_pessoa_entregadora) := by
  rw [rankingPasso, if_pos h, List.map_map]
  refine List.map_congr_left ?_
  intro a _
  by_cases ha : a.id_da_pessoa_entregadora == t.id_da_pessoa_entregadora
  . show (if a.id_da_pessoa_entregadora == t.id_da_pessoa_entregadora
        then acumularTurno a t else a).id_da_pessoa_entregadora = _
    rw [if_pos ha, acumularTurno_id]
  . show (if a.id_da_pessoa_entregadora == t.id_da_pessoa_entregadora
        then acumularTurno a t else a).id_da_pessoa_entregadora = _
    rw [if_neg ha]

lemma ranking_invariante (ts : List TurnoFinal) :
    ((ts.foldl rankingPasso []).map (fun a => a.id_da_pessoa_entregadora)).Nodup ∧
    (∀ w : String, (∃ a ∈ ts.foldl rankingPasso [], a.id_da_pessoa_entregadora = w)
      ↔ ((∃ t ∈ ts, t.id_da_pessoa_entregadora = w) ∧ w ∉ chavesHerdadas)) ∧
    (∀ a ∈ ts.foldl rankingPasso [],
      a.total_pontos = ((ts.filter (fun t =>
          t.id_da_pessoa_entregadora == a.id_da_pessoa_entregadora)).map
          (fun t => t.total_pontos_final)).sum ∧
      a.total_entregas = ((ts.filter (fun t =>
          t.id_da_pessoa_entregadora == a.id_da_pessoa_entregadora)).map
          (fun t => t.numero_de_corridas_completadas.getD 0)).sum ∧
      a.total_turnos = (ts.filter (fun t =>
          t.id_da_pessoa_entregadora == a.id_da_pessoa_entregadora)).length) := by
  induction ts using List.reverseRecOn with
  | nil => refine ⟨by simp, by simp, by simp⟩
  | append_singleton ts t ih =>
    obtain ⟨ihN, ihM, ihS⟩ := ih
    rw [List.foldl_append]
    simp only [List.foldl_cons, List.foldl_nil]
    by_cases hany : (ts.foldl rankingPasso []).any
        (fun a => a.id_da_pessoa_entregadora == t.id_da_pessoa_entregadora) = true
    . -- the worker already has an own accumulator: in-place update
      have hcond : ((ts.foldl rankingPasso []).any
          (fun a => a.id_da_pessoa_entregadora == t.id_da_pessoa_entregadora)
          || chavesHerdadas.contains t.id_da_pessoa_entregadora) = true := by
        rw [hany]
        rfl
      have hids := rankingPasso_ids (ts.foldl rankingPasso []) t hcond
      have hmem_t : (∃ t2 ∈ ts, t2.id_da_pessoa_entregadora = t.id_da_pessoa_entregadora)
          ∧ t.id_da_pessoa_entregadora ∉ chavesHerdadas := by
        obtain ⟨a, ha, haid⟩ := List.any_eq_true.mp hany
        exact (ihM t.id_da_pessoa_entregadora).mp ⟨a, ha, beq_iff_eq.mp haid⟩
      refine ⟨by rw [hids]; exact ihN, ?_, ?_⟩
      . intro w
        constructor
        . intro hw
          obtain ⟨a, ha, haw⟩ := hw
          rw [rankingPasso, if_pos hcond] at ha
          obtain ⟨b, hb, hba⟩ := List.mem_map.mp ha
          by_cases hbid : b.id_da_pessoa_entregadora == t.id_da_pessoa_entregadora
          . rw [if_pos hbid] at hba
            have hbw : b.id_da_pessoa_entregadora = w := by
              rw [← haw, ← hba]; rfl
            obtain ⟨⟨t2, ht2, ht2w⟩, hwherd⟩ := (ihM w).mp ⟨b, hb, hbw⟩
            exact ⟨⟨t2, List.mem_append_left _ ht2, ht2w⟩, hwherd⟩
          . rw [if_neg hbid] at hba
            obtain ⟨⟨t2, ht2, ht2w⟩, hwherd⟩ := (ihM w).mp ⟨b, hb, by rw [hba, haw]⟩
            exact ⟨⟨t2, List.mem_append_left _ ht2, ht2w⟩, hwherd⟩
        . intro hw
          obtain ⟨⟨t2, ht2, ht2w⟩, hwherd⟩ := hw
          have hstep : (∃ a ∈ ts.foldl rankingPasso [], a.id_da_pessoa_entregadora = w) →
              ∃ a ∈ rankingPasso (ts.foldl rankingPasso []) t,
                a.id_da_pessoa_entregadora = w := by
            intro hacc
            obtain ⟨a, ha, haw⟩ := hacc
            rw [rankingPasso, if_pos hcond]
            by_cases haid : a.id_da_pessoa_entregadora == t.id_da_pessoa_entregadora
            . refine ⟨acumularTurno a t, List.mem_map.mpr ⟨a, ha, by rw [if_pos haid]⟩, ?_⟩
              rw [acumularTurno_id]; exact haw
            . exact ⟨a, List.mem_map.mpr ⟨a, ha, by rw [if_neg haid]⟩, haw⟩
          rcases List.mem_append.mp ht2 with ht2l | ht2r
          . exact hstep ((ihM w).mpr ⟨⟨t2, ht2l, ht2w⟩, hwherd⟩)
          . have ht2t : t2 = t := List.mem_singleton.mp ht2r
            refine hstep ((ihM w).mpr ⟨?_, hwherd⟩)
            obtain ⟨t3, ht3, ht3w⟩ := hmem_t.1
            exact ⟨t3, ht3, by rw [ht3w, ← ht2t]; exact ht2w⟩
      . intro a' ha'
        rw [rankingPasso, if_pos hcond] at ha'
        obtain ⟨a, ha, haa'⟩ := List.mem_map.mp ha'
        obtain ⟨hS1, hS2, hS3⟩ := ihS a ha
        by_cases haid : a.id_da_pessoa_entregadora == t.id_da_pessoa_entregadora
        . rw [if_pos haid] at haa'
          subst haa'
          rw [acumularTurno_id]
          have hsame : (t.id_da_pessoa_entregadora == a.id_da_pessoa_entregadora) = true := by
            rw [beq_iff_eq]; exact (beq_iff_eq.mp haid).symm
          rw [List.filter_append]
          simp only [List.filter_cons, List.filter_nil, hsame, if_true, List.map_append,
            List.sum_append, List.length_append, List.map_cons, List.map_nil, List.sum_cons,
            List.sum_nil, List.length_cons, List.length_nil]
          refine ⟨?_, ?_, ?_⟩
          . show a.total_pontos + t.total_pontos_final = _
            omega
          . show a.total_entregas + t.numero_de_corridas_completadas.getD 0 = _
            omega
          . show a.total_turnos + 1 = _
            omega
        . rw [if_neg haid] at haa'
          subst haa'
          have hdiff : (t.id_da_pessoa_entregadora == a.id_da_pessoa_entregadora) = false := by
            rw [beq_eq_false_iff_ne]
            intro he
            exact haid (beq_iff_eq.mpr he.symm)
          rw [List.filter_append]
          simp [List.filter_cons, hdiff, hS1, hS2, hS3]
    . have hnone : ∀ a ∈ ts.foldl rankingPasso [],
          (a.id_da_pessoa_entregadora == t.id_da_pessoa_entregadora) = false := by
        rw [List.any_eq_true] at hany
        push_neg at hany
        intro a ha
        simpa using hany a ha
      by_cases hherdt : chavesHerdadas.contains t.id_da_pessoa_entregadora = true
      . -- inherited-truthy identifier: the update matches nothing, no entry appears
        have hcond : ((ts.foldl rankingPasso []).any
            (fun a => a.id_da_pessoa_entregadora == t.id_da_pessoa_entregadora)
            || chavesHerdadas.contains t.id_da_pessoa_entregadora) = true := by
          rw [hherdt, Bool.or_true]
        have hherd_mem : t.id_da_pessoa_entregadora ∈ chavesHerdadas := by
          simpa using hherdt
        have hnoop : rankingPasso (ts.foldl rankingPasso []) t = ts.foldl rankingPasso [] := by
          rw [rankingPasso, if_pos hcond]
          have hfix : ∀ a ∈ ts.foldl rankingPasso [],
              (if a.id_da_pessoa_entregadora == t.id_da_pessoa_entregadora
                then acumularTurno a t else a) = id a := by
            intro a ha
            rw [if_neg (by simp [hnone a ha])]
            rfl
          rw [List.map_congr_left hfix, List.map_id]
        rw [hnoop]
        refine ⟨ihN, ?_, ?_⟩
        . intro w
          constructor
          . intro hw
            obtain ⟨⟨t2, ht2, ht2w⟩, hwherd⟩ := (ihM w).mp hw
            exact ⟨⟨t2, List.mem_append_left _ ht2, ht2w⟩, hwherd⟩
          . intro hw
            obtain ⟨⟨t2, ht2, ht2w⟩, hwherd⟩ := hw
            rcases List.mem_append.mp ht2 with ht2l | ht2r
            . exact (ihM w).mpr ⟨⟨t2, ht2l, ht2w⟩, hwherd⟩
            . have ht2t : t2 = t := List.mem_singleton.mp ht2r
              exact absurd (by rw [← ht2w, ht2t]; exact hherd_mem) hwherd
        . intro a ha
          obtain ⟨hS1, hS2, hS3⟩ := ihS a ha
          have hdiff : (t.id_da_pessoa_entregadora == a.id_da_pessoa_entregadora) = false := by
            rw [beq_eq_false_iff_ne]
            intro he
            have hf := hnone a ha
            rw [beq_eq_false_iff_ne] at hf
            exact hf he.symm
          rw [List.filter_append]
          simp [List.filter_cons, hdiff, hS1, hS2, hS3]
      . -- genuinely new worker: appended accumulator
        have hherdf : chavesHerdadas.contains t.id_da_pessoa_entregadora = false := by
          simpa using hherdt
        have hherd_notmem : t.id_da_pessoa_entregadora ∉ chavesHerdadas := by
          simpa using hherdf
        have hanyf : (ts.foldl rankingPasso []).any
            (fun a => a.id_da_pessoa_entregadora == t.id_da_pessoa_entregadora) = false := by
          simpa using hany
        have hcondn : ¬ (((ts.foldl rankingPasso []).any
            (fun a => a.id_da_pessoa_entregadora == t.id_da_pessoa_entregadora)
            || chavesHerdadas.contains t.id_da_pessoa_entregadora) = true) := by
          rw [hanyf, hherdf]
          exact Bool.false_ne_true
        have hts_none : ∀ t2 ∈ ts, t2.id_da_pessoa_entregadora ≠ t.id_da_pessoa_entregadora := by
          intro t2 ht2 he
          obtain ⟨a, ha, haid⟩ := (ihM t.id_da_pessoa_entregadora).mpr
            ⟨⟨t2, ht2, he⟩, hherd_notmem⟩
          have hf := hnone a ha
          rw [beq_eq_false_iff_ne] at hf
          exact hf haid
        have hid_new : (acumularTurno (novaEntradaRanking t) t).id_da_pessoa_entregadora
            = t.id_da_pessoa_entregadora := rfl
        have hnotmem : t.id_da_pessoa_entregadora
            ∉ (ts.foldl rankingPasso []).map (fun a => a.id_da_pessoa_entregadora) := by
          intro hm
          obtain ⟨a, ha, haid⟩ := List.mem_map.mp hm
          have hf := hnone a ha
          rw [beq_eq_false_iff_ne] at hf
          exact hf haid
        rw [rankingPasso, if_neg hcondn]
        refine ⟨?_, ?_, ?_⟩
        . rw [List.map_append]
          simp only [List.map_cons, List.map_nil, hid_new]
          rw [List.nodup_append]
          exact ⟨ihN, List.nodup_singleton _, by simpa using hnotmem⟩
        . intro w
          constructor
          . intro hw
            obtain ⟨a, ha, haw⟩ := hw
            rcases List.mem_append.mp ha with hal | har
            . obtain ⟨⟨t2, ht2, ht2w⟩, hwherd⟩ := (ihM w).mp ⟨a, hal, haw⟩
              exact ⟨⟨t2, List.mem_append_left _ ht2, ht2w⟩, hwherd⟩
            . have hae : a = acumularTurno (novaEntradaRanking t) t := List.mem_singleton.mp har
              have hwt : t.id_da_pessoa_entregadora = w := by
                rw [← haw, hae, hid_new]
              refine ⟨⟨t, List.mem_append_right _ (List.mem_singleton.mpr rfl), hwt⟩, ?_⟩
              rw [← hwt]
              exact hherd_notmem
          . intro hw
            obtain ⟨⟨t2, ht2, ht2w⟩, hwherd⟩ := hw
            rcases List.mem_append.mp ht2 with ht2l | ht2r
            . obtain ⟨a, ha, haw⟩ := (ihM w).mpr ⟨⟨t2, ht2l, ht2w⟩, hwherd⟩
              exact ⟨a, List.mem_append_left _ ha, haw⟩
            . have ht2t : t2 = t := List.mem_singleton.mp ht2r
              refine ⟨acumularTurno (novaEntradaRanking t) t,
                List.mem_append_right _ (List.mem_singleton.mpr rfl), ?_⟩
              rw [hid_new, ← ht2t]
              exact ht2w
        . intro a' ha'
          rcases List.mem_append.mp ha' with hal | har
          . obtain ⟨hS1, hS2, hS3⟩ := ihS a' hal
            have hdiff : (t.id_da_pessoa_entregadora == a'.id_da_pessoa_entregadora) = false := by
              rw [beq_eq_false_iff_ne]
              intro he
              have hf := hnone a' hal
              rw [beq_eq_false_iff_ne] at hf
              exact hf he.symm
            rw [List.filter_append]
            simp [List.filter_cons, hdiff, hS1, hS2, hS3]
          . have hae : a' = acumularTurno (novaEntradaRanking t) t := List.mem_singleton.mp har
            subst hae
            rw [hid_new]
            have hself : (t.id_da_pessoa_entregadora == t.id_da_pessoa_entregadora) = true :=
              beq_self_eq_true _
            have hfilnil : ts.filter (fun t2 =>
                t2.id_da_pessoa_entregadora == t.id_da_pessoa_entregadora) = [] := by
              rw [List.filter_eq_nil_iff]
              intro t2 ht2 hp
              exact hts_none t2 ht2 (beq_iff_eq.mp hp)
            rw [List.filter_append, hfilnil]
            simp only [List.filter_cons, List.filter_nil, hself, if_true, List.nil_append]
            refine ⟨?_, ?_, ?_⟩
            . show (novaEntradaRanking t).total_pontos + t.total_pontos_final = _
              simp [novaEntradaRanking]
            . show (novaEntradaRanking t).total_entregas
                + t.numero_de_corridas_completadas.getD 0 = _
              simp [novaEntradaRanking]
            . show (novaEntradaRanking t).total_turnos + 1 = _
              simp [novaEntradaRanking]

lemma countP_id_eq_one {β : Type} (f : β → String) (w : String) :
    ∀ (l : List β), (l.map f).Nodup → ∀ a ∈ l, f a = w →
      l.countP (fun x => f x == w) = 1 := by
  intro l
  induction l with
  | nil => intro _ a ha; simp at ha
  | cons b t ih =>
    intro hnd a ha hfa
    rw [List.map_cons, List.nodup_cons] at hnd
    rw [List.countP_cons]
    rcases List.mem_cons.mp ha with hab | hat
    . subst hab
      have hz : t.countP (fun x => f x == w) = 0 := by
        rw [List.countP_eq_zero]
        intro x hx hpx
        exact hnd.1 (by rw [hfa, ← beq_iff_eq.mp hpx]; exact List.mem_map_of_mem f hx)
      rw [hz]
      simp [hfa]
    . have hbw : (f b == w) = false := by
        rw [beq_eq_false_iff_ne]
        intro he
        exact hnd.1 (by rw [he, ← hfa]; exact List.mem_map_of_mem f hat)
      rw [ih hnd.2 a hat hfa, hbw]
      simp

lemma finalizarEntrada_id (a : RankingAcc) :
    (finalizarEntrada a).id_da_pessoa_entregadora = a.id_da_pessoa_entregadora := rfl

lemma calcularRanking_def (ts : List TurnoFinal) :
    calcularRanking ts
      = List.insertionSort ordemRanking ((ts.foldl rankingPasso []).map finalizarEntrada) := rfl

/-- C5 (amended): the source tests `if (!entregadores[id])` on a plain object,
a prototype-sensitive truthy read, so a worker whose identifier is an
`Object.prototype` property name (`"toString"`, `"__proto__"`, ...) never gets
an own accumulator and is absent from the ranking.  For every other worker
appearing in the input, `calcularRanking` produces exactly one entry, whose
`total_pontos` is the sum of `total_pontos_final` over the worker's shifts,
whose `total_entregas` is the sum of their completed-delivery counts (missing
counted as 0), and whose `total_turnos` is the number of their shifts. -/
theorem c5_totais_ranking (ts : List TurnoFinal) (w : String)
    (hw : ∃ t ∈ ts, t.id_da_pessoa_entregadora = w)
    (hherd : w ∉ chavesHerdadas) :
    (∃ e ∈ calcularRanking ts, e.id_da_pessoa_entregadora = w) ∧
    (calcularRanking ts).countP (fun e => e.id_da_pessoa_entregadora == w) = 1 ∧
    (∀ e ∈ calcularRanking ts, e.id_da_pessoa_entregadora = w →
      e.total_pontos = ((ts.filter (fun t => t.id_da_pessoa_entregadora == w)).map
          (fun t => t.total_pontos_final)).sum ∧
      e.total_entregas = ((ts.filter (fun t => t.id_da_pessoa_entregadora == w)).map
          (fun t => t.numero_de_corridas_completadas.getD 0)).sum ∧
      e.total_turnos = (ts.filter (fun t => t.id_da_pessoa_entregadora == w)).length) := by
  obtain ⟨hN, hM, hS⟩ := ranking_invariante ts
  have hperm : (calcularRanking ts).Perm ((ts.foldl rankingPasso []).map finalizarEntrada) := by
    rw [calcularRanking_def]
    exact List.perm_insertionSort _ _
  obtain ⟨a, ha, haw⟩ := (hM w).mpr ⟨hw, hherd⟩
  refine ⟨?_, ?_, ?_⟩
  . refine ⟨finalizarEntrada a, ?_, by rw [finalizarEntrada_id]; exact haw⟩
    exact hperm.mem_iff.mpr (List.mem_map_of_mem finalizarEntrada ha)
  . rw [hperm.countP_eq, List.countP_map]
    have hcomp : ((fun e : RankingEntry => e.id_da_pessoa_entregadora == w) ∘ finalizarEntrada)
        = (fun a : RankingAcc => a.id_da_pessoa_entregadora == w) := rfl
    rw [hcomp]
    exact countP_id_eq_one (fun a => a.id_da_pessoa_entregadora) w _ hN a ha haw
  . intro e he hew
    have hepre : e ∈ (ts.foldl rankingPasso []).map finalizarEntrada := hperm.mem_iff.mp he
    obtain ⟨b, hb, hbe⟩ := List.mem_map.mp hepre
    obtain ⟨hS1, hS2, hS3⟩ := hS b hb
    have hbw : b.id_da_pessoa_entregadora = w := by
      rw [← hew, ← hbe, finalizarEntrada_id]
    rw [← hbe]
    rw [hbw] at hS1 hS2 hS3
    exact ⟨hS1, hS2, hS3⟩

/-- C6: the list returned by `calcularRanking` is sorted by `total_pontos` in
descending order: each entry's total is at least the next entry's total. -/
theorem c6_ranking_ordenado (ts : List TurnoFinal) (i : Nat)
    (h1 : i < (calcularRanking ts).length) (h2 : i + 1 < (calcularRanking ts).length) :
    ((calcularRanking ts).get ⟨i + 1, h2⟩).total_pontos
      ≤ ((calcularRanking ts).get ⟨i, h1⟩).total_pontos := by
  have hs : List.Sorted ordemRanking (calcularRanking ts) := by
    rw [calcularRanking_def]
    exact List.sorted_insertionSort ordemRanking _
  exact hs.rel_get_of_lt (Fin.mk_lt_mk.mpr (Nat.lt_succ_self i))

lemma durationToSeconds_um_hora : durationToSeconds (some "01:00:00") = 3600 := by
  rw [durationToSeconds_eval (show splitOnChar ':' ("01:00:00" : String).data
      = [("01" : String).data, ("00" : String).data, ("00" : String).data] from by decide)]
  have hf : parseFloatChars ("00" : String).data = (digitsToNat ("00" : String).data : ℚ) :=
    parseFloatChars_digits (by decide) (by decide)
  rw [hf, show parseIntChars ("01" : String).data = 1 from by decide,
    show parseIntChars ("00" : String).data = 0 from by decide,
    show digitsToNat ("00" : String).data = 0 from by decide]
  norm_num

lemma durationToSeconds_zero_texto : durationToSeconds (some "00:00:00") = 0 := by
  rw [durationToSeconds_eval (show splitOnChar ':' ("00:00:00" : String).data
      = [("00" : String).data, ("00" : String).data, ("00" : String).data] from by decide)]
  have hf : parseFloatChars ("00" : String).data = (digitsToNat ("00" : String).data : ℚ) :=
    parseFloatChars_digits (by decide) (by decide)
  rw [hf, show parseIntChars ("00" : String).data = 0 from by decide,
    show digitsToNat ("00" : String).data = 0 from by decide]
  norm_num

lemma durationToSeconds_negativa : durationToSeconds (some "-1:00:00") = -3600 := by
  rw [durationToSeconds_eval (show splitOnChar ':' ("-1:00:00" : String).data
      = [("-1" : String).data, ("00" : String).data, ("00" : String).data] from by decide)]
  have hf : parseFloatChars ("00" : String).data = (digitsToNat ("00" : String).data : ℚ) :=
    parseFloatChars_digits (by decide) (by decide)
  rw [hf, show parseIntChars ("-1" : String).data = -1 from by decide,
    show parseIntChars ("00" : String).data = 0 from by decide,
    show digitsToNat ("00" : String).data = 0 from by decide]
  norm_num

lemma durationToSeconds_limite : durationToSeconds (some "00:53:59.9") = 32399 / 10 := by
  rw [durationToSeconds_eval (show splitOnChar ':' ("00:53:59.9" : String).data
      = [("00" : String).data, ("53" : String).data, ("59.9" : String).data] from by decide)]
  have hsplit : ("59.9" : String).data = ("59" : String).data ++ '.' :: ("9" : String).data := by
    decide
  have hf : parseFloatChars (("59" : String).data ++ '.' :: ("9" : String).data)
      = (digitsToNat ("59" : String).data : ℚ)
        + (digitsToNat ("9" : String).data : ℚ) / 10 ^ (("9" : String).data).length :=
    parseFloatChars_digits_frac (by decide) (by decide) (by decide)
  rw [hsplit, hf, show parseIntChars ("00" : String).data = 0 from by decide,
    show parseIntChars ("53" : String).data = 53 from by decide,
    show digitsToNat ("59" : String).data = 59 from by decide,
    show digitsToNat ("9" : String).data = 9 from by decide,
    show (("9" : String).data).length = 1 from by decide]
  norm_num

lemma pontos_percentual_eq (t : Turno) :
    (calcularPontosTurno t).percentual_tempo_online
      = arredondar2 (calcularPercentualOnline t.tempo_disponivel_absoluto
          t.duracao_do_periodo) := rfl

lemma pontos_bonus90_eq (t : Turno) :
    (calcularPontosTurno t).bonus_90_online
      = if 90 ≤ calcularPercentualOnline t.tempo_disponivel_absoluto t.duracao_do_periodo
        then 50 else 0 := by
  simp [calcularPontosTurno]

lemma pontos_bonusData_eq (t : Turno) :
    (calcularPontosTurno t).bonus_data_especial
      = if (90 ≤ calcularPercentualOnline t.tempo_disponivel_absoluto t.duracao_do_periodo)
          ∧ isDataEspecial (jsDateUTCDiaMes t.data_do_periodo) = true
        then 50 else 0 := by
  simp [calcularPontosTurno]

lemma isDataEspecial_true_iff (o : Option (Nat × Nat)) :
    isDataEspecial o = true ↔ ∃ dm, o = some dm ∧
      ((dm.1 = 24 ∧ dm.2 = 12) ∨ (dm.1 = 25 ∧ dm.2 = 12) ∨
        (dm.1 = 31 ∧ dm.2 = 12) ∨ (dm.1 = 1 ∧ dm.2 = 1)) := by
  cases o with
  | none => simp [isDataEspecial]
  | some dm =>
    obtain ⟨d, m⟩ := dm
    simp [isDataEspecial]
    tauto

/-- C3: in `calcularPontosTurno` the online bonus is 50 exactly when the
computed (exact, unrounded) online percentage is at least 90, the threshold
being inclusive; otherwise it is 0. -/
theorem c3_bonus_90_online (t : Turno) :
    ((calcularPontosTurno t).bonus_90_online = 50 ↔
      90 ≤ calcularPercentualOnline t.tempo_disponivel_absoluto t.duracao_do_periodo) ∧
    ((calcularPontosTurno t).bonus_90_online = 50 ∨
      (calcularPontosTurno t).bonus_90_online = 0) := by
  rw [pontos_bonus90_eq]
  by_cases h : 90 ≤ calcularPercentualOnline t.tempo_disponivel_absoluto t.duracao_do_periodo
  . simp [h]
  . simp [h]

/-- C2: in `calcularPontosTurno` the special-date bonus is 50 exactly when the
online bonus is 50 and the UTC day and month extracted from the shift's date
are 24/12, 25/12, 31/12 or 01/01 (of any year); otherwise it is 0. -/
theorem c2_bonus_data_especial (t : Turno) :
    ((calcularPontosTurno t).bonus_data_especial = 50 ↔
      ((calcularPontosTurno t).bonus_90_online = 50 ∧
        ∃ dm, jsDateUTCDiaMes t.data_do_periodo = some dm ∧
          ((dm.1 = 24 ∧ dm.2 = 12) ∨ (dm.1 = 25 ∧ dm.2 = 12) ∨
            (dm.1 = 31 ∧ dm.2 = 12) ∨ (dm.1 = 1 ∧ dm.2 = 1)))) ∧
    ((calcularPontosTurno t).bonus_data_especial = 50 ∨
      (calcularPontosTurno t).bonus_data_especial = 0) := by
  rw [pontos_bonusData_eq, pontos_bonus90_eq, ← isDataEspecial_true_iff]
  by_cases h1 : 90 ≤ calcularPercentualOnline t.tempo_disponivel_absoluto t.duracao_do_periodo
  . by_cases h2 : isDataEspecial (jsDateUTCDiaMes t.data_do_periodo) = true
    . simp [h1, h2]
    . simp [h1, h2]
  . by_cases h2 : isDataEspecial (jsDateUTCDiaMes t.data_do_periodo) = true
    . simp [h1, h2]
    . simp [h1, h2]

/-- C7: when the scheduled duration parses to 0 seconds, the online percentage
is 0 (the guarded division is never taken), the stored percentage is 0, and no
online bonus is granted, whatever the online-duration field holds. -/
theorem c7_duracao_zero (t : Turno)
    (h : durationToSeconds t.duracao_do_periodo = 0) :
    calcularPercentualOnline t.tempo_disponivel_absoluto t.duracao_do_periodo = 0 ∧
    (calcularPontosTurno t).percentual_tempo_online = 0 ∧
    (calcularPontosTurno t).bonus_90_online = 0 := by
  have hp : calcularPercentualOnline t.tempo_disponivel_absoluto t.duracao_do_periodo = 0 := by
    simp [calcularPercentualOnline, h]
  refine ⟨hp, ?_, ?_⟩
  . rw [pontos_percentual_eq, hp]
    simp [arredondar2]
  . rw [pontos_bonus90_eq, hp]
    norm_num

/-- Witness for C7: a concrete shift with scheduled duration `"00:00:00"` and
online duration `"05:00:00"` gets percentage 0 and no online bonus. -/
theorem c7_testemunha :
    durationToSeconds turnoDuracaoZero.duracao_do_periodo = 0 ∧
    calcularPercentualOnline turnoDuracaoZero.tempo_disponivel_absoluto
      turnoDuracaoZero.duracao_do_periodo = 0 ∧
    (calcularPontosTurno turnoDuracaoZero).bonus_90_online = 0 := by
  have h0 : durationToSeconds turnoDuracaoZero.duracao_do_periodo = 0 :=
    durationToSeconds_zero_texto
  exact ⟨h0, (c7_duracao_zero turnoDuracaoZero h0).1, (c7_duracao_zero turnoDuracaoZero h0).2.2⟩

/-- C9 (amended): whenever both duration fields parse to non-negative values —
in particular for every well-formed digit-only duration text — the exact
online percentage and the stored rounded `percentual_tempo_online` are both
non-negative.  There is no clamp in the code: a duration string with a
negative-parsing field produces a negative percentage (see the
counterexample). -/
theorem c9_percentual_nao_negativo (t : Turno)
    (h1 : 0 ≤ durationToSeconds t.tempo_disponivel_absoluto)
    (h2 : 0 ≤ durationToSeconds t.duracao_do_periodo) :
    0 ≤ calcularPercentualOnline t.tempo_disponivel_absoluto t.duracao_do_periodo ∧
    0 ≤ (calcularPontosTurno t).percentual_tempo_online := by
  have hp : 0 ≤ calcularPercentualOnline t.tempo_disponivel_absoluto t.duracao_do_periodo := by
    simp only [calcularPercentualOnline]
    by_cases hz : durationToSeconds t.duracao_do_periodo = 0
    . simp [hz]
    . rw [if_neg hz]
      have hpos : 0 < durationToSeconds t.duracao_do_periodo :=
        lt_of_le_of_ne h2 (Ne.symm hz)
      exact mul_nonneg (div_nonneg h1 (le_of_lt hpos)) (by norm_num)
  refine ⟨hp, ?_⟩
  rw [pontos_percentual_eq, arredondar2]
  refine div_nonneg ?_ (by norm_num)
  have hfl : (0 : ℤ) ≤ round (calcularPercentualOnline t.tempo_disponivel_absoluto
      t.duracao_do_periodo * 100) := by
    rw [round_eq]
    refine Int.floor_nonneg.mpr ?_
    have : (0 : ℚ) ≤ calcularPercentualOnline t.tempo_disponivel_absoluto
        t.duracao_do_periodo * 100 := mul_nonneg hp (by norm_num)
    linarith
  exact_mod_cast hfl

/-- Counterexample for C9: the shift `turnoNegativo`, whose online duration is
the text `"-1:00:00"`, gets the percentage −100 — both the exact and the
stored value are negative, so the claimed clamp to non-negative values does
not exist in the code. -/
theorem c9_contraexemplo :
    calcularPercentualOnline turnoNegativo.tempo_disponivel_absoluto
      turnoNegativo.duracao_do_periodo = -100 ∧
    (calcularPontosTurno turnoNegativo).percentual_tempo_online = -100 ∧
    ¬ (0 ≤ (calcularPontosTurno turnoNegativo).percentual_tempo_online) := by
  have hun : durationToSeconds turnoNegativo.tempo_disponivel_absoluto = -3600 :=
    durationToSeconds_negativa
  have hdu : durationToSeconds turnoNegativo.duracao_do_periodo = 3600 :=
    durationToSeconds_um_hora
  have hp : calcularPercentualOnline turnoNegativo.tempo_disponivel_absoluto
      turnoNegativo.duracao_do_periodo = -100 := by
    simp only [calcularPercentualOnline, hun, hdu]
    norm_num
  have hst : (calcularPontosTurno turnoNegativo).percentual_tempo_online = -100 := by
    rw [pontos_percentual_eq, hp, arredondar2]
    have hr : round ((-100 : ℚ) * 100) = -10000 := by
      rw [show ((-100 : ℚ) * 100) = ((-10000 : ℤ) : ℚ) from by norm_num, round_intCast]
    rw [hr]
    norm_num
  exact ⟨hp, hst, by rw [hst]; norm_num⟩

/-- Witness for C9 (amended): a shift with both duration fields absent parses
both durations to 0, and the percentage and the stored percentage are both
non-negative. -/
theorem c9_testemunha :
    0 ≤ durationToSeconds turnoMeta1.tempo_disponivel_absoluto ∧
    0 ≤ durationToSeconds turnoMeta1.duracao_do_periodo ∧
    0 ≤ calcularPercentualOnline turnoMeta1.tempo_disponivel_absoluto
        turnoMeta1.duracao_do_periodo ∧
    0 ≤ (calcularPontosTurno turnoMeta1).percentual_tempo_online := by
  have h1 : (0 : ℚ) ≤ durationToSeconds turnoMeta1.tempo_disponivel_absoluto := le_refl 0
  have h2 : (0 : ℚ) ≤ durationToSeconds turnoMeta1.duracao_do_periodo := le_refl 0
  have h := c9_percentual_nao_negativo turnoMeta1 h1 h2
  exact ⟨h1, h2, h.1, h.2⟩

/-- C10: the online-bonus decision is taken on the exact unrounded percentage
while the persisted `percentual_tempo_online` is that value rounded to two
decimals; consequently there is an input — `turnoLimite`, with exact
percentage 32399/360 ≈ 89.9972% strictly between 89.995% and 90% — whose
stored percentage reads 90 while `bonus_90_online` is 0, so the stored field
cannot reconstruct the boundary decision. -/
theorem c10_fronteira_arredondamento :
    (∀ t : Turno, (calcularPontosTurno t).percentual_tempo_online
      = arredondar2 (calcularPercentualOnline t.tempo_disponivel_absoluto
          t.duracao_do_periodo)) ∧
    (∀ t : Turno, (calcularPontosTurno t).bonus_90_online
      = if 90 ≤ calcularPercentualOnline t.tempo_disponivel_absoluto t.duracao_do_periodo
        then 50 else 0) ∧
    (∃ t : Turno,
      89995 / 1000 < calcularPercentualOnline t.tempo_disponivel_absoluto
          t.duracao_do_periodo ∧
      calcularPercentualOnline t.tempo_disponivel_absoluto t.duracao_do_periodo < 90 ∧
      (calcularPontosTurno t).percentual_tempo_online = 90 ∧
      (calcularPontosTurno t).bonus_90_online = 0) := by
  refine ⟨fun t => pontos_percentual_eq t, fun t => pontos_bonus90_eq t, ?_⟩
  have hun : durationToSeconds turnoLimite.tempo_disponivel_absoluto = 32399 / 10 :=
    durationToSeconds_limite
  have hdu : durationToSeconds turnoLimite.duracao_do_periodo = 3600 :=
    durationToSeconds_um_hora
  have hp : calcularPercentualOnline turnoLimite.tempo_disponivel_absoluto
      turnoLimite.duracao_do_periodo = 32399 / 360 := by
    simp only [calcularPercentualOnline, hun, hdu]
    norm_num
  refine ⟨turnoLimite, by rw [hp]; norm_num, by rw [hp]; norm_num, ?_, ?_⟩
  . rw [pontos_percentual_eq, hp, arredondar2]
    have hr : round ((32399 / 360 : ℚ) * 100) = 9000 := by
      rw [round_eq, show ((32399 / 360 : ℚ) * 100 + 1 / 2) = 162004 / 18 from by norm_num]
      refine Int.floor_eq_iff.mpr ⟨by norm_num, by norm_num⟩
    rw [hr]
    norm_num
  . rw [pontos_bonus90_eq, hp]
    rw [if_neg (by norm_num)]

lemma splitOnChar_sem_separador {sep : Char} :
    ∀ {l : List Char}, sep ∉ l → splitOnChar sep l = [l] := by
  intro l
  induction l with
  | nil => intro _; rfl
  | cons c cs ih =>
    intro h
    have hc : c ≠ sep := fun e => h (e ▸ List.mem_cons_self c cs)
    have hcs : sep ∉ cs := fun hm => h (List.mem_cons_of_mem c hm)
    simp only [splitOnChar]
    rw [if_neg hc, ih hcs]

/-- C4 (amended): for a date-only stored string (no `'T'`, hence no time/zone
suffix), the UTC day and month used by the special-date check are exactly the
day and month written in the calendar-date portion of the string, which is the
whole string; extraction never shifts the calendar day.  For strings carrying
a time and a zone offset the UTC conversion can shift the day (see the
counterexample). -/
theorem c4_data_sem_horario (s : String) (p : Nat × Nat)
    (hT : 'T' ∉ s.data) (hp : jsDateUTCDiaMes s = some p) :
    normalizarData s = s ∧
    ∃ y m d, lerDataCalendario s.data = some (y, m, d) ∧ p = (d, m) := by
  have hsplit : splitOnChar 'T' s.data = [s.data] := splitOnChar_sem_separador hT
  constructor
  . rw [normalizarData, hsplit]
    rfl
  . rw [jsDateUTCDiaMes, hsplit] at hp
    have hp2 : (lerDataCalendario s.data).map (fun ymd => (ymd.2.2, ymd.2.1)) = some p := hp
    cases hld : lerDataCalendario s.data with
    | none => rw [hld] at hp2; simp at hp2
    | some ymd =>
      rw [hld] at hp2
      simp only [Option.map_some'] at hp2
      obtain ⟨y, m, d⟩ := ymd
      exact ⟨y, m, d, rfl, (Option.some.injEq _ _).mp hp2 |>.symm⟩

/-- Counterexample for C4: the stored string `"2024-12-25T23:00:00-03:00"`
has calendar-date portion `"2024-12-25"` (day 25), but the UTC day/month used
by the special-date check is (26, 12) — the zone conversion shifted the
calendar day. -/
theorem c4_contraexemplo :
    normalizarData "2024-12-25T23:00:00-03:00" = "2024-12-25" ∧
    jsDateUTCDiaMes "2024-12-25" = some (25, 12) ∧
    jsDateUTCDiaMes "2024-12-25T23:00:00-03:00" = some (26, 12) ∧
    jsDateUTCDiaMes "2024-12-25T23:00:00-03:00" ≠ some (25, 12) := by
  refine ⟨by decide, by decide, by decide, by decide⟩

/-- Witness for C4 (amended): the date-only string `"2024-12-25"` is its own
calendar portion and yields UTC day/month (25, 12). -/
theorem c4_testemunha :
    normalizarData "2024-12-25" = "2024-12-25" ∧
    ∃ y m d, lerDataCalendario ("2024-12-25" : String).data = some (y, m, d) ∧
      ((25, 12) : Nat × Nat) = (d, m) :=
  c4_data_sem_horario "2024-12-25" (25, 12) (by decide) (by decide)

/-- Counterexample for C1 as frozen: grouping is by the concatenated string
`id|day`, not by the (worker identifier, calendar day) pair.  With
`turnoColisaoA` (worker `"a|x"`, day `"d"`) and `turnoColisaoB` (worker
`"a"`, day `"x|d"`) both shifts share the key `"a|x|d"`; the (worker, day)
group of `("a", "x|d")` consists of the second shift alone, its daily-goal
bonus sum is 0, yet the bonus computed once from that group's 25 total
deliveries is 200 — the claimed per-(worker, day) equality fails. -/
theorem c1_contraexemplo :
    ¬ ((((processarTodosOsTurnos [turnoColisaoA, turnoColisaoB]).filter (fun u =>
        u.id_da_pessoa_entregadora == "a" && normalizarData u.data_do_periodo == "x|d")).map
        (fun u => u.bonus_meta_diaria)).sum
      = calcularBonusMetaDiaria ((((processarTodosOsTurnos
          [turnoColisaoA, turnoColisaoB]).filter (fun u =>
          u.id_da_pessoa_entregadora == "a" && normalizarData u.data_do_periodo == "x|d")).map
          (fun u => u.numero_de_corridas_completadas.getD 0)).sum)) := by
  decide

/-- Witness for C1 (amended): two same-day shifts of worker `"w1"` with 10 and
12 deliveries — the identifiers contain no `'|'`, every group member after the
first gets bonus 0, and the group's bonus sum is the single 200-point bonus of
its 22 total deliveries. -/
theorem c1_testemunha :
    (∀ t ∈ [turnoMeta1, turnoMeta2], '|' ∉ t.id_da_pessoa_entregadora.data) ∧
    ((((processarTodosOsTurnos [turnoMeta1, turnoMeta2]).filter (fun u =>
        u.id_da_pessoa_entregadora == "w1" && normalizarData u.data_do_periodo == "2024-03-05")).map
        (fun u => u.bonus_meta_diaria)).sum
      = calcularBonusMetaDiaria ((((processarTodosOsTurnos [turnoMeta1, turnoMeta2]).filter
          (fun u => u.id_da_pessoa_entregadora == "w1"
            && normalizarData u.data_do_periodo == "2024-03-05")).map
          (fun u => u.numero_de_corridas_completadas.getD 0)).sum)) :=
  ⟨by decide,
    (c1_meta_diaria_grupo [turnoMeta1, turnoMeta2] "w1" "2024-03-05" (by decide)).2.1⟩

/-- Counterexample for C5 as frozen: the worker identifier `"toString"` is an
`Object.prototype` property name, so `!entregadores[id]` is false on first
sight, initialisation is skipped, the `+=` writes land on the inherited
prototype member, and `Object.values` — hence the ranking — contains no entry
for that worker at all. -/
theorem c5_contraexemplo :
    (∃ t ∈ [turnoFinalProto], t.id_da_pessoa_entregadora = "toString") ∧
    calcularRanking [turnoFinalProto] = [] ∧
    ¬ (∃ e ∈ calcularRanking [turnoFinalProto], e.id_da_pessoa_entregadora = "toString") := by
  refine ⟨by decide, by decide, by decide⟩

/-- Witness for C5 (amended): in a batch with three finalized shifts (two of
worker `"w1"`, an ordinary identifier), the ranking has exactly one `"w1"`
entry. -/
theorem c5_testemunha :
    (∃ t ∈ [turnoFinalA, turnoFinalB, turnoFinalC], t.id_da_pessoa_entregadora = "w1") ∧
    ("w1" : String) ∉ chavesHerdadas ∧
    (calcularRanking [turnoFinalA, turnoFinalB, turnoFinalC]).countP
      (fun e => e.id_da_pessoa_entregadora == "w1") = 1 :=
  ⟨⟨turnoFinalA, by decide, by decide⟩, by decide,
    (c5_totais_ranking [turnoFinalA, turnoFinalB, turnoFinalC] "w1"
      ⟨turnoFinalA, by decide, by decide⟩ (by decide)).2.1⟩

/-- Witness for C6: on a concrete two-worker batch the first ranking entry has
at least as many points as the second. -/
theorem c6_testemunha :
    ((calcularRanking [turnoFinalA, turnoFinalB]).get ⟨0 + 1, by decide⟩).total_pontos
      ≤ ((calcularRanking [turnoFinalA, turnoFinalB]).get ⟨0, by decide⟩).total_pontos :=
  c6_ranking_ordenado [turnoFinalA, turnoFinalB] 0 (by decide) (by decide)
